import Mathlib

/-!
Verification of the so-vits-svc-fork GUI front-end (`gui.py`) and its
helper module (`utils.py`) against the repository's natural-language
specification.

The development shallowly embeds the Python source: Python `dict`s become
insertion-ordered association lists, the filesystem becomes an explicit
record of existing paths and parsed JSON contents, GUI widget state
becomes records, and the `start_vc` / `infer` / polling branches of the
event loop become pure Lean functions.  Fallible Python expressions
(`int(...)` on a string, list indexing, `KeyError`) are modelled with
`Option`.  Where the claim concerns the realtime inference pipeline whose
implementation is not part of this source slice (only its call sites
are), the missing behaviour is modelled from the specification and is
marked `Modelled from the spec:` in its doc comment.
-/

namespace SoVits

/-! ## Insertion-ordered dictionaries

Python `dict`s are insertion ordered; writing to an existing key updates
the value in place, keeping the key's original position.  `gui.py`
manipulates preset dictionaries through `{**a, **b}` merges, item
assignment and `del`, so we embed exactly that structure as an
association list whose keys are unique by construction.  The preset
*values* are never inspected by `load_presets` / `add_preset` /
`delete_preset`, so they stay a type parameter `α`.
-/

/-- `d[k] = v` on a Python dict: update in place if `k` is present,
else append at the end. -/
def odInsert {α : Type} (d : List (String × α)) (k : String) (v : α) :
    List (String × α) :=
  match d with
  | [] => [(k, v)]
  | (k2, v2) :: rest =>
    if k2 = k then (k2, v) :: rest else (k2, v2) :: odInsert rest k v

/-- `d[k]` lookup (first match; dicts built by `odInsert` have unique keys). -/
def odLookup {α : Type} (d : List (String × α)) (k : String) : Option α :=
  match d with
  | [] => none
  | (k2, v) :: rest => if k2 = k then some v else odLookup rest k

/-- `del d[k]` on a Python dict: remove the (unique) binding of `k`. -/
def odRemove {α : Type} (d : List (String × α)) (k : String) :
    List (String × α) :=
  match d with
  | [] => []
  | (k2, v) :: rest => if k2 = k then rest else (k2, v) :: odRemove rest k

/-- `{**d, **xs}`: fold all bindings of `xs` into `d`, left to right. -/
def odExtend {α : Type} (d : List (String × α)) (xs : List (String × α)) :
    List (String × α) :=
  match xs with
  | [] => d
  | kv :: rest => odExtend (odInsert d kv.1 kv.2) rest

/-- The value the *last* binding of `k` in the raw pair list `xs` carries,
if any.  This is what a sequence of dict writes leaves behind for `k`. -/
def lastVal {α : Type} (xs : List (String × α)) (k : String) : Option α :=
  match xs with
  | [] => none
  | kv :: rest =>
    match lastVal rest k with
    | some v => some v
    | none => if kv.1 = k then some kv.2 else none

/-! ## Presets (`gui.py` lines 29-55)

`load_presets` reads the bundled default presets and the user preset
file (missing user file = empty dict) and returns
`{**defaults, **users, **defaults}`.  `add_preset` / `delete_preset`
mutate a loaded copy, write it to the user preset file, and return a
fresh `load_presets()`.  The two JSON files are passed explicitly:
`defaults` is the parsed default-preset file and `usersFile` the parsed
user-preset file (`none` when the file does not exist).  Parsed JSON
dicts have unique keys, but we make no such assumption in the proofs. -/

/-- `load_presets()`: `{**defaults, **users, **defaults}`. -/
def load_presets {α : Type} (defaults : List (String × α))
    (usersFile : Option (List (String × α))) : List (String × α) :=
  odExtend (odExtend (odExtend [] defaults) (usersFile.getD [])) defaults

/-- `add_preset(name, preset)`: returns (value returned to the GUI,
new contents of the user preset file). -/
def add_preset {α : Type} (defaults : List (String × α))
    (usersFile : Option (List (String × α))) (name : String) (preset : α) :
    List (String × α) × List (String × α) :=
  let presets := odInsert (load_presets defaults usersFile) name preset
  (load_presets defaults (some presets), presets)

/-- `delete_preset(name)`: returns (value returned to the GUI,
new contents of the user preset file). -/
def delete_preset {α : Type} (defaults : List (String × α))
    (usersFile : Option (List (String × α))) (name : String) :
    List (String × α) × List (String × α) :=
  let presets := load_presets defaults usersFile
  let presets2 :=
    if (odLookup presets name).isSome then odRemove presets name else presets
  (load_presets defaults (some presets2), presets2)

/-! ## GUI value state

`values` as read from the PySimpleGUI window: one field per widget key
used by the event handlers.  Sliders report rationals, checkboxes
booleans, inputs strings.  (`preset_name` / `presets` and the browse
buttons are not consumed by the claims' handlers and are omitted.) -/

structure Values where
  model_path : String
  config_path : String
  cluster_model_path : String
  speaker : String
  silence_threshold : ℚ
  transpose : ℚ
  auto_predict_f0 : Bool
  f0_method : String
  cluster_infer_ratio : ℚ
  noise_scale : ℚ
  pad_seconds : ℚ
  chunk_seconds : ℚ
  absolute_thresh : Bool
  input_path : String
  auto_play : Bool
  crossfade_seconds : ℚ
  block_seconds : ℚ
  additional_infer_before_seconds : ℚ
  additional_infer_after_seconds : ℚ
  realtime_algorithm : String
  passthrough_original : Bool
  use_gpu : Bool
deriving DecidableEq, Repr

/-- A JSON value as far as the GUI consumes config files: an object
(Python dict, insertion ordered after `json.loads`) or an opaque
scalar/array leaf. -/
inductive JsonV : Type where
  | leaf (s : String)
  | obj (kvs : List (String × JsonV))

/-- The filesystem as the handlers observe it: which paths exist, which
of those are regular files, and the parsed JSON object behind each
readable JSON file. -/
structure FS where
  existing : List String
  regularFiles : List String
  jsonFiles : List (String × List (String × JsonV))

/-- `Path(p).exists()`. -/
def FS.pathExists (fs : FS) (p : String) : Bool :=
  fs.existing.contains p

/-- `Path(p).is_file()`. -/
def FS.pathIsFile (fs : FS) (p : String) : Bool :=
  fs.regularFiles.contains p

/-- `json.loads(open(p).read())` — `none` models the raised exception
when the file is unreadable or not valid JSON. -/
def FS.readJson (fs : FS) (p : String) : Option (List (String × JsonV)) :=
  odLookup fs.jsonFiles p

/-! ## Device selection (`gui.py` lines 411-430, 571-579, 633) -/

/-- Default of the `use_gpu` checkbox:
`torch.cuda.is_available() or torch.backends.mps.is_available()`. -/
def useGpuDefault (cudaAvail mpsAvail : Bool) : Bool :=
  cudaAvail || mpsAvail

/-- Device string handed to offline `infer` (lines 571-579):
`"cpu" if not use_gpu else ("cuda" if cuda else "mps" if mps else "cpu")`. -/
def inferDevice (cudaAvail mpsAvail useGpu : Bool) : String :=
  if !useGpu then "cpu"
  else if cudaAvail then "cuda"
  else if mpsAvail then "mps"
  else "cpu"

/-- Device string handed to `realtime` (line 633):
`"cuda" if values["use_gpu"] else "cpu"`. -/
def realtimeDevice (useGpu : Bool) : String :=
  if useGpu then "cuda" else "cpu"

/-! ## Python helpers used by the `start_vc` branch -/

/-- `int(s[0])`: take the first character of `s` and parse it as an
integer.  `none` models the `IndexError` (empty string) or `ValueError`
(non-digit) raised by Python. -/
def pyIntOfFirstChar (s : String) : Option Int :=
  match s.data with
  | [] => none
  | c :: _ => if c.isDigit then some ((c.toNat : Int) - 48) else none

/-- Python list indexing `xs[i]` with negative-index wraparound;
`none` models the raised `IndexError`. -/
def pyListGet {β : Type} (xs : List β) (i : Int) : Option β :=
  if 0 ≤ i then xs.get? i.toNat
  else
    let j : Int := i + xs.length
    if 0 ≤ j then xs.get? j.toNat else none

/-- `Path(s) if s else None` — the empty string is falsy in Python. -/
def optPath (s : String) : Option String :=
  if s = "" then none else some s

/-! ## The `infer` branch (`gui.py` lines 539-584) -/

/-- The keyword arguments the GUI builds for `inference_main.infer`.
(`output_path` is derived from `input_path` by adding an `.out` marker
before the suffix; no claim consumes it, so it is not repeated here.) -/
structure InferKwargs where
  model_path : String
  input_path : String
  config_path : String
  speaker : String
  cluster_model_path : Option String
  transpose : ℚ
  auto_predict_f0 : Bool
  cluster_infer_ratio : ℚ
  noise_scale : ℚ
  f0_method : String
  db_thresh : ℚ
  pad_seconds : ℚ
  chunk_seconds : ℚ
  absolute_thresh : Bool
  device : String
deriving DecidableEq, Repr

/-- What one `infer` event produces: whether the "does not exist"
warning was logged, and the call handed to `infer` (if any). -/
structure InferOutcome where
  warned : Bool
  call : Option InferKwargs
deriving DecidableEq, Repr

/-- The `elif event == "infer"` branch: reject a missing or non-file
input path with a warning and `continue`; otherwise call `infer` with
the widget values. -/
def inferHandler (cudaAvail mpsAvail : Bool) (v : Values) (fs : FS) :
    InferOutcome :=
  if !(fs.pathExists v.input_path) || !(fs.pathIsFile v.input_path) then
    { warned := true, call := none }
  else
    { warned := false
      call := some
        { model_path := v.model_path
          input_path := v.input_path
          config_path := v.config_path
          speaker := v.speaker
          cluster_model_path := optPath v.cluster_model_path
          transpose := v.transpose
          auto_predict_f0 := v.auto_predict_f0
          cluster_infer_ratio := v.cluster_infer_ratio
          noise_scale := v.noise_scale
          f0_method := v.f0_method
          db_thresh := v.silence_threshold
          pad_seconds := v.pad_seconds
          chunk_seconds := v.chunk_seconds
          absolute_thresh := v.absolute_thresh
          device := inferDevice cudaAvail mpsAvail v.use_gpu } }

/-! ## The `start_vc` branch (`gui.py` lines 588-636) -/

/-- The keyword arguments the GUI builds for `inference_main.realtime`. -/
structure RealtimeKwargs where
  model_path : String
  config_path : String
  speaker : String
  cluster_model_path : Option String
  transpose : ℚ
  auto_predict_f0 : Bool
  cluster_infer_ratio : ℚ
  noise_scale : ℚ
  f0_method : String
  db_thresh : ℚ
  pad_seconds : ℚ
  chunk_seconds : ℚ
  crossfade_seconds : ℚ
  additional_infer_before_seconds : ℚ
  additional_infer_after_seconds : ℚ
  block_seconds : ℚ
  version : Int
  input_device : Int
  output_device : Int
  device : String
  passthrough_original : Bool
deriving DecidableEq, Repr

/-- The kwargs dict built in the `elif event == "start_vc"` branch and
handed to `pool.schedule(realtime, ...)`.  `inputIdxs`/`outputIdxs` are
`get_devices(update=False)`'s device-index lists, `inSel`/`outSel` the
combo boxes' `widget.current()` (−1 when nothing is selected).  The
branch performs no path or existence validation; `none` models only a
Python exception while *building* the kwargs (`int` parse or device
list indexing). -/
def startVcKwargs (v : Values) (inputIdxs outputIdxs : List Int)
    (inSel outSel : Int) : Option RealtimeKwargs :=
  match pyIntOfFirstChar v.realtime_algorithm,
      pyListGet inputIdxs inSel, pyListGet outputIdxs outSel with
  | some ver, some inDev, some outDev =>
    some
      { model_path := v.model_path
        config_path := v.config_path
        speaker := v.speaker
        cluster_model_path := optPath v.cluster_model_path
        transpose := v.transpose
        auto_predict_f0 := v.auto_predict_f0
        cluster_infer_ratio := v.cluster_infer_ratio
        noise_scale := v.noise_scale
        f0_method := v.f0_method
        db_thresh := v.silence_threshold
        pad_seconds := v.pad_seconds
        chunk_seconds := v.chunk_seconds
        crossfade_seconds := v.crossfade_seconds
        additional_infer_before_seconds := v.additional_infer_before_seconds
        additional_infer_after_seconds := v.additional_infer_after_seconds
        block_seconds := v.block_seconds
        version := ver
        input_device := inDev
        output_device := outDev
        device := realtimeDevice v.use_gpu
        passthrough_original := v.passthrough_original }
  | _, _, _ => none

/-- The two values offered by the `realtime_algorithm` combo box
(`gui.py` lines 317-325). -/
def realtimeAlgorithmChoices : List String :=
  ["2 (Divide by speech)", "1 (Divide constantly)"]

/-! ## The transpose widget update (`gui.py` lines 520-523) -/

/-- The `disabled`/`visible` arguments of a widget `update` call. -/
structure WidgetUpdate where
  disabled : Bool
  visible : Bool
deriving DecidableEq, Repr

/-- On every event-loop iteration:
`window["transpose"].update(disabled=values["auto_predict_f0"],
visible=not values["auto_predict_f0"])`. -/
def transposeUpdate (v : Values) : WidgetUpdate :=
  { disabled := v.auto_predict_f0, visible := !v.auto_predict_f0 }

/-- Modelled from the spec: the Inference Adapter (the
`inference_main.realtime`/`infer` implementation is not part of this
source slice, only its call sites are) applies "optional automatic F0
estimation (mutually exclusive with manual transpose — enforced: if
`auto_predict_f0` is enabled, manual transpose is ignored)".  The
manual transpose a realtime call effectively applies, if any. -/
def RealtimeKwargs.effectiveTranspose (c : RealtimeKwargs) : Option ℚ :=
  if c.auto_predict_f0 then none else some c.transpose

/-- Modelled from the spec: same adapter rule for the offline `infer`
call — with `auto_predict_f0` enabled the manual transpose is ignored. -/
def InferKwargs.effectiveTranspose (c : InferKwargs) : Option ℚ :=
  if c.auto_predict_f0 then none else some c.transpose

/-! ## `update_speaker` (`gui.py` lines 451-460, `utils.py` lines 485-491, 538-546)

`get_hparams_from_file` parses the JSON config into an `HParams` whose
`__dict__` keeps the parsed dict's insertion order; `update_speaker`
then replaces the speaker combo's choices with
`list(hp.__dict__["spk"].keys())` and selects index 0. -/

/-- The speaker combo box: its choice list and selected index. -/
structure SpeakerWidget where
  choices : List String
  selectedIndex : Option Nat
deriving DecidableEq, Repr

/-- `list(HParams(**config).__dict__["spk"].keys())`: the keys of the
config's `"spk"` object, in the mapping's order.  `none` models the
`KeyError` when `"spk"` is absent and the `AttributeError` when its
value is not a dict. -/
def hparamsSpkKeys (config : List (String × JsonV)) : Option (List String) :=
  match odLookup config "spk" with
  | some (JsonV.obj kvs) => some (kvs.map Prod.fst)
  | _ => none

/-- `update_speaker()`: when the configured config path exists and is a
regular file, load it and replace the speaker choices; otherwise leave
the widget untouched.  `none` models an exception escaping the handler
(unreadable JSON, missing `"spk"`). -/
def update_speaker (fs : FS) (configPath : String) (w : SpeakerWidget) :
    Option SpeakerWidget :=
  if fs.pathExists configPath && fs.pathIsFile configPath then
    match fs.readJson configPath with
    | some cfg =>
      match hparamsSpkKeys cfg with
      | some ks => some { choices := ks, selectedIndex := some 0 }
      | none => none
    | none => none
  else some w

/-! ## The `from .utils import ensure_hubert_model` import (`gui.py` line 14)

`utils.py` binds these module-level names (imports, constants,
functions, the `HParams` class), in source order. -/

def utilsModuleNames : List String :=
  ["annotations", "glob", "json", "os", "re", "subprocess", "getLogger",
   "Path", "np", "requests", "torch", "read", "tqdm", "LOG",
   "MATPLOTLIB_FLAG", "f0_bin", "f0_max", "f0_min", "f0_mel_min",
   "f0_mel_max", "HUBERT_SAMPLING_RATE", "normalize_f0",
   "plot_data_to_numpy", "interpolate_f0", "compute_f0_parselmouth",
   "resize_f0", "compute_f0_dio", "f0_to_coarse", "download_file",
   "ensure_pretrained_model", "ensure_hurbert_model", "get_hubert_model",
   "get_hubert_content", "get_content", "load_checkpoint",
   "save_checkpoint", "clean_checkpoints", "summarize",
   "latest_checkpoint_path", "plot_spectrogram_to_numpy",
   "plot_alignment_to_numpy", "load_wav_to_torch",
   "load_filepaths_and_text", "get_hparams", "get_hparams_from_dir",
   "get_hparams_from_file", "check_git_hash", "repeat_expand_2d",
   "HParams"]

/-- The name `gui.py` asks `utils` for at line 14. -/
def guiHubertImportName : String := "ensure_hubert_model"

/-- `from M import name`: succeeds iff the module binds `name`, else
raises `ImportError` before any later statement of the importing module
runs. -/
def pythonFromImport (defined : List String) (name : String) :
    Except String Unit :=
  if defined.contains name then Except.ok ()
  else Except.error ("ImportError: cannot import name " ++ name)

/-- `def ensure_hurbert_model() -> Path` (`utils.py` line 229) declares
no parameters. -/
def ensureHurbertModelParams : List String := []

/-- The keyword-argument names `main()` passes at its three
`ensure_hubert_model(...)` call sites (`gui.py` lines 88, 93, 97). -/
def guiHubertCallKwargs : List (List String) :=
  [["tqdm_cls"], [], ["disable"]]

/-! ## Crossfade gain curves

Modelled from the spec: the Crossfade Mixer's implementation
(`inference_main.realtime` and the machinery behind it) is not part of
this source slice — only its call sites and the `crossfade_seconds`
configuration surface are.  The spec requires overlap-adding with "a
monotonic fade curve (equal-power or linear; must sum to unity gain at
every sample position)"; we take the linear complementary pair over an
overlap of `n` samples. -/

/-- Modelled from the spec: linear fade-in gain of the new chunk at
overlap sample `i` of `n`. -/
def fadeInGain (n i : ℕ) : ℚ := (i : ℚ) / n

/-- Modelled from the spec: linear fade-out gain of the previous
chunk's crossfade buffer at overlap sample `i` of `n`. -/
def fadeOutGain (n i : ℕ) : ℚ := ((n : ℚ) - i) / n

/-- Modelled from the spec: `mix` overlap-adds the crossfade buffer and
the leading overlap of the new chunk with the complementary gains. -/
def crossfadeMix (n : ℕ) (buffer newChunk : ℕ → ℚ) (i : ℕ) : ℚ :=
  fadeOutGain n i * buffer i + fadeInGain n i * newChunk i

/-! ## The event loop's task pool (`gui.py` lines 500-501, 588-661)

`main` opens `ProcessPool(max_workers=1)` and tracks at most one
`ProcessFuture` in the variable `future`.  The `start_vc` branch cancels
the tracked future (if any) *before* scheduling the new `realtime` task;
`stop_vc` cancels and drops it; `play_audio` jobs are scheduled into the
same pool untracked; at the end of each iteration a done tracked future
is consumed.  We embed this as a transition system over the pool's task
list plus the `future` variable. -/

inductive TaskKind where
  | realtime
  | playAudio
deriving DecidableEq, Repr

/-- One task ever scheduled into the pool.  `cancelled` is set by
`ProcessFuture.cancel()` (which pebble honours even for a running task,
by terminating its worker process); `finished` by the worker completing
or erroring out. -/
structure PoolTask where
  kind : TaskKind
  cancelled : Bool
  finished : Bool
deriving DecidableEq, Repr

/-- The event loop's scheduling state: every task ever scheduled
(index = schedule order) and the `future` variable as an index. -/
structure LoopState where
  tasks : List PoolTask
  tracked : Option Nat
deriving DecidableEq, Repr

/-- Mark task `i` cancelled (`future.cancel()`). -/
def setCancelled : List PoolTask → Nat → List PoolTask
  | [], _ => []
  | t :: ts, 0 => { t with cancelled := true } :: ts
  | t :: ts, i + 1 => t :: setCancelled ts i

/-- Mark task `i` finished (its worker returned or raised). -/
def setFinished : List PoolTask → Nat → List PoolTask
  | [], _ => []
  | t :: ts, 0 => { t with finished := true } :: ts
  | t :: ts, i + 1 => t :: setFinished ts i

/-- The pool-affecting events of one loop iteration. -/
inductive GuiEvent where
  | startVc
  | stopVc
  | schedulePlayAudio
  | workerFinish (i : Nat)
  | pollDone
deriving DecidableEq, Repr

/-- One pool-affecting step of the event loop (`gui.py` lines 588-640,
653-659): `start_vc` cancels the tracked future before scheduling the
new `realtime` task and tracks it; `stop_vc` cancels and clears;
`play_audio` is scheduled untracked; the end-of-iteration poll clears a
done tracked future. -/
def loopStep (e : GuiEvent) (s : LoopState) : LoopState :=
  match e with
  | GuiEvent.startVc =>
    let ts :=
      match s.tracked with
      | some i => setCancelled s.tasks i
      | none => s.tasks
    { tasks := ts ++ [⟨TaskKind.realtime, false, false⟩],
      tracked := some ts.length }
  | GuiEvent.stopVc =>
    match s.tracked with
    | some i => { tasks := setCancelled s.tasks i, tracked := none }
    | none => s
  | GuiEvent.schedulePlayAudio =>
    { s with tasks := s.tasks ++ [⟨TaskKind.playAudio, false, false⟩] }
  | GuiEvent.workerFinish i => { s with tasks := setFinished s.tasks i }
  | GuiEvent.pollDone =>
    match s.tracked with
    | some i =>
      if (s.tasks.get? i).elim false (fun t => t.finished) then
        { s with tracked := none }
      else s
    | none => s

/-- A realtime session that could still run or be running: scheduled,
not cancelled, not finished. -/
def isActiveRealtime (t : PoolTask) : Bool :=
  t.kind == TaskKind.realtime && !t.cancelled && !t.finished

/-- Number of active realtime sessions in the pool. -/
def activeCount (s : LoopState) : Nat :=
  (s.tasks.filter isActiveRealtime).length

/-- States the event loop can reach from its initial state (empty pool,
`future = None`). -/
inductive Reachable : LoopState → Prop where
  | init : Reachable ⟨[], none⟩
  | next (e : GuiEvent) {s : LoopState} : Reachable s → Reachable (loopStep e s)

/-- Loop invariant: every active realtime task is the tracked one — the
`future` variable never loses sight of a live realtime session. -/
def TrackedInv (s : LoopState) : Prop :=
  ∀ j t, s.tasks.get? j = some t → isActiveRealtime t = true →
    s.tracked = some j

/-! ## The end-of-iteration future poll (`gui.py` lines 653-659) -/

/-- What the background `realtime` worker left in its future. -/
inductive WorkerOutcome where
  | ok
  | raised (msg : String)
deriving DecidableEq, Repr

/-- The tracked `ProcessFuture` as the poll sees it. -/
structure RtFuture where
  isDone : Bool
  outcome : WorkerOutcome
deriving DecidableEq, Repr

/-- `future.result()` on a done future: return the worker's value or
re-raise its stored exception. -/
def futureResult (f : RtFuture) : Except String Unit :=
  match f.outcome with
  | WorkerOutcome.ok => Except.ok ()
  | WorkerOutcome.raised m => Except.error m

/-- What one `if future is not None and future.done():` block produces:
the new value of `future`, the exception logged by the `except` clause,
and any exception escaping into the UI thread. -/
structure PollOutcome where
  newFuture : Option RtFuture
  loggedException : Option String
  raisedToUi : Option String
deriving DecidableEq, Repr

/-- `try: future.result() except Exception as e: LOG.exception(e)` —
a worker exception is caught and logged, never re-raised. -/
def tryResultLog (f : RtFuture) : Option String × Option String :=
  match futureResult f with
  | Except.ok _ => (none, none)
  | Except.error m => (some m, none)

/-- The end-of-iteration poll (`gui.py` lines 653-659). -/
def pollFutureStep (fut : Option RtFuture) : PollOutcome :=
  match fut with
  | none => { newFuture := none, loggedException := none, raisedToUi := none }
  | some f =>
    if f.isDone then
      let r := tryResultLog f
      { newFuture := none, loggedException := r.1, raisedToUi := r.2 }
    else { newFuture := some f, loggedException := none, raisedToUi := none }

/-! ## Concrete instances used by witnesses and counterexamples -/

/-- A representative widget-value state: GPU checked, constant-interval
realtime algorithm, valid-looking paths. -/
def baseValues : Values :=
  { model_path := "logs/44k/G_100.pth"
    config_path := "configs/44k/config.json"
    cluster_model_path := ""
    speaker := "kiritan"
    silence_threshold := -35
    transpose := 12
    auto_predict_f0 := false
    f0_method := "dio"
    cluster_infer_ratio := 0
    noise_scale := 2/5
    pad_seconds := 1/10
    chunk_seconds := 1/2
    absolute_thresh := false
    input_path := "in.wav"
    auto_play := true
    crossfade_seconds := 1/20
    block_seconds := 7/20
    additional_infer_before_seconds := 1/20
    additional_infer_after_seconds := 1/20
    realtime_algorithm := "1 (Divide constantly)"
    passthrough_original := false
    use_gpu := true }

/-- `baseValues` with automatic F0 prediction enabled. -/
def apfValues : Values := { baseValues with auto_predict_f0 := true }

/-- `baseValues` with model and config paths that exist on no
filesystem used here. -/
def badValues : Values :=
  { baseValues with
    model_path := "/missing/G_800.pth"
    config_path := "/missing/config.json" }

/-- A filesystem holding the input file and a config whose `"spk"`
table has the single speaker `"kiritan"`. -/
def fsSample : FS :=
  { existing := ["in.wav", "configs/44k/config.json"]
    regularFiles := ["in.wav", "configs/44k/config.json"]
    jsonFiles :=
      [("configs/44k/config.json",
        [("spk", JsonV.obj [("kiritan", JsonV.leaf "0")])])] }

/-- An empty filesystem: no path exists. -/
def fsEmpty : FS := { existing := [], regularFiles := [], jsonFiles := [] }

/-- A speaker combo in its initial empty state. -/
def emptySpeakerWidget : SpeakerWidget := { choices := [], selectedIndex := none }

/-- The loop state after two consecutive `start_vc` events. -/
def sampleLoopState : LoopState :=
  loopStep GuiEvent.startVc (loopStep GuiEvent.startVc ⟨[], none⟩)

/-- A default-preset table with a single preset. -/
def cexDefaults : List (String × String) := [("Default VC (GPU)", "x")]

end SoVits

namespace SoVits

/-! ### Dictionary lemmas -/

theorem odLookup_odInsert_self {α : Type} (d : List (String × α))
    (k : String) (v : α) : odLookup (odInsert d k v) k = some v := by
  induction d with
  | nil => simp [odInsert, odLookup]
  | cons kv rest ih =>
    obtain ⟨k2, v2⟩ := kv
    by_cases h : k2 = k
    · simp [odInsert, odLookup, h]
    · simp [odInsert, odLookup, h, ih]

theorem odLookup_odInsert_ne {α : Type} (d : List (String × α))
    (k k' : String) (v : α) (h : k' ≠ k) :
    odLookup (odInsert d k v) k' = odLookup d k' := by
  induction d with
  | nil => simp [odInsert, odLookup, Ne.symm h]
  | cons kv rest ih =>
    obtain ⟨k2, v2⟩ := kv
    by_cases h2 : k2 = k
    · subst h2
      simp [odInsert, odLookup, Ne.symm h]
    · simp only [odInsert, if_neg h2]
      by_cases h3 : k2 = k'
      · simp [odLookup, h3]
      · simp [odLookup, h3, ih]

/-- Looking a key up after folding a pair list into a dict: the last
binding in the list wins; absent that, the original dict answers. -/
theorem odLookup_odExtend {α : Type} (xs : List (String × α))
    (d : List (String × α)) (k : String) :
    odLookup (odExtend d xs) k =
      match lastVal xs k with
      | some v => some v
      | none => odLookup d k := by
  induction xs generalizing d with
  | nil => simp [odExtend, lastVal]
  | cons kv rest ih =>
    obtain ⟨k1, v1⟩ := kv
    simp only [odExtend, lastVal]
    rw [ih]
    cases hrest : lastVal rest k with
    | some v => simp
    | none =>
      simp only
      by_cases h1 : k1 = k
      · subst h1
        simp [odLookup_odInsert_self]
      · simp [h1, odLookup_odInsert_ne _ _ _ _ (Ne.symm h1)]

/-- In `load_presets` a default key always carries its default value:
the trailing `**defaults` in `{**defaults, **users, **defaults}` wins. -/
theorem load_presets_default_key {α : Type} (defaults : List (String × α))
    (usersFile : Option (List (String × α))) (k : String) (v : α)
    (h : lastVal defaults k = some v) :
    odLookup (load_presets defaults usersFile) k = some v := by
  unfold load_presets
  rw [odLookup_odExtend]
  simp [h]

/-- In `load_presets` a non-default key answers from the user file. -/
theorem load_presets_user_key {α : Type} (defaults : List (String × α))
    (usersFile : Option (List (String × α))) (k : String)
    (h : lastVal defaults k = none) :
    odLookup (load_presets defaults usersFile) k =
      match lastVal (usersFile.getD []) k with
      | some v => some v
      | none => none := by
  unfold load_presets
  rw [odLookup_odExtend]
  simp only [h]
  rw [odLookup_odExtend]
  cases hu : lastVal (usersFile.getD []) k with
  | some v => simp
  | none =>
    simp only
    rw [odLookup_odExtend]
    simp [h, odLookup]

theorem mem_keys_odInsert {α : Type} {d : List (String × α)} {k k' : String}
    {v : α} (h : k' ∈ (odInsert d k v).map Prod.fst) :
    k' = k ∨ k' ∈ d.map Prod.fst := by
  induction d with
  | nil =>
    simp [odInsert] at h
    exact Or.inl h
  | cons kv rest ih =>
    obtain ⟨k2, v2⟩ := kv
    by_cases h2 : k2 = k
    · simp only [odInsert, if_pos h2, List.map_cons, List.mem_cons] at h
      rcases h with h | h
      · exact Or.inr (by simp [h])
      · exact Or.inr (by simp [h])
    · simp only [odInsert, if_neg h2, List.map_cons, List.mem_cons] at h
      rcases h with h | h
      · exact Or.inr (by simp [h])
      · rcases ih h with h3 | h3
        · exact Or.inl h3
        · exact Or.inr (by simp [h3])

theorem nodup_keys_odInsert {α : Type} {d : List (String × α)} {k : String}
    {v : α} (h : (d.map Prod.fst).Nodup) :
    ((odInsert d k v).map Prod.fst).Nodup := by
  induction d with
  | nil => simp [odInsert]
  | cons kv rest ih =>
    obtain ⟨k2, v2⟩ := kv
    simp only [List.map_cons, List.nodup_cons] at h
    by_cases h2 : k2 = k
    · simp only [odInsert, if_pos h2, List.map_cons, List.nodup_cons]
      exact ⟨h.1, h.2⟩
    · simp only [odInsert, if_neg h2, List.map_cons, List.nodup_cons]
      refine ⟨fun hmem => ?_, ih h.2⟩
      rcases mem_keys_odInsert hmem with h3 | h3
      · exact h2 h3
      · exact h.1 h3

theorem nodup_keys_odExtend {α : Type} (xs : List (String × α))
    (d : List (String × α)) (h : (d.map Prod.fst).Nodup) :
    ((odExtend d xs).map Prod.fst).Nodup := by
  induction xs generalizing d with
  | nil => exact h
  | cons kv rest ih => exact ih _ (nodup_keys_odInsert h)

theorem load_presets_nodup_keys {α : Type} (defaults : List (String × α))
    (usersFile : Option (List (String × α))) :
    ((load_presets defaults usersFile).map Prod.fst).Nodup := by
  unfold load_presets
  exact nodup_keys_odExtend _ _
    (nodup_keys_odExtend _ _ (nodup_keys_odExtend _ _ (by simp)))

theorem lastVal_eq_none_of_not_mem {α : Type} {d : List (String × α)}
    {k : String} (h : k ∉ d.map Prod.fst) : lastVal d k = none := by
  induction d with
  | nil => rfl
  | cons kv rest ih =>
    simp only [List.map_cons, List.mem_cons, not_or] at h
    simp only [lastVal, ih h.2]
    simp [Ne.symm h.1]

/-- On a dict with unique keys the last binding is the only binding. -/
theorem lastVal_eq_odLookup {α : Type} {d : List (String × α)}
    (h : (d.map Prod.fst).Nodup) (k : String) :
    lastVal d k = odLookup d k := by
  induction d with
  | nil => rfl
  | cons kv rest ih =>
    obtain ⟨k2, v2⟩ := kv
    simp only [List.map_cons, List.nodup_cons] at h
    by_cases h2 : k2 = k
    · subst h2
      simp [lastVal, odLookup, lastVal_eq_none_of_not_mem h.1]
    · simp only [lastVal, odLookup, if_neg h2, ih h.2]
      cases odLookup rest k <;> simp [h2]

/-- C10 counterexample: with the single default preset
`("Default VC (GPU)", "x")`, calling `add_preset` with that same name
and payload `"x"` yields `"x"` at that name even though the name *is* a
default-preset key — refuting the claim's "if and only if name is not a
default-preset key". -/
theorem add_preset_default_key_cex :
    odLookup (add_preset cexDefaults none "Default VC (GPU)" "x").1
        "Default VC (GPU)" = some "x" ∧
    (lastVal cexDefaults "Default VC (GPU)").isSome = true := by
  constructor <;> rfl

/-- C10 (amended): `load_presets` applies the defaults last, so every
default-preset key maps to its default value in the result of
`load_presets`, `add_preset` and `delete_preset` alike; `add_preset`
followed by `load_presets` yields the added payload at any
*non*-default key, and at a default key it yields the default value
(which coincides with the payload exactly when the payload equals the
default). -/
theorem presets_defaults_last {α : Type} (defaults : List (String × α))
    (usersFile : Option (List (String × α))) (name k : String) (p v : α) :
    (lastVal defaults name = none →
      odLookup (add_preset defaults usersFile name p).1 name = some p) ∧
    (lastVal defaults k = some v →
      odLookup (add_preset defaults usersFile name p).1 k = some v) ∧
    (lastVal defaults k = some v →
      odLookup (delete_preset defaults usersFile name).1 k = some v) ∧
    (lastVal defaults k = some v →
      odLookup (load_presets defaults usersFile) k = some v) := by
  refine ⟨fun h => ?_, fun h => load_presets_default_key _ _ _ _ h,
    fun h => load_presets_default_key _ _ _ _ h,
    fun h => load_presets_default_key _ _ _ _ h⟩
  show odLookup (load_presets defaults
    (some (odInsert (load_presets defaults usersFile) name p))) name = some p
  rw [load_presets_user_key _ _ _ h]
  rw [Option.getD_some,
    lastVal_eq_odLookup (nodup_keys_odInsert (load_presets_nodup_keys _ _)) name,
    odLookup_odInsert_self]

/-- C10 witness: concrete instance of `presets_defaults_last` — adding
`("b", "2")` over the default table `[("a", "1")]` yields `"2"` at the
non-default key `"b"` and keeps `"1"` at the default key `"a"`. -/
theorem presets_defaults_last_witness :
    odLookup (add_preset [("a", "1")] none "b" "2").1 "b" = some "2" ∧
    odLookup (add_preset [("a", "1")] none "b" "2").1 "a" = some "1" :=
  ⟨(presets_defaults_last [("a", "1")] none "b" "a" "2" "1").1 rfl,
   (presets_defaults_last [("a", "1")] none "b" "a" "2" "1").2.1 rfl⟩

/-- C6: the complementary crossfade gain curves sum to exactly 1 at
every overlapping sample index, so the overlap-add of two chunks
carrying the same signal reproduces that signal exactly (no volume
discontinuity at chunk seams). -/
theorem crossfade_gains_sum_to_one (n i : ℕ) (hi : i < n) :
    fadeInGain n i + fadeOutGain n i = 1 ∧
    ∀ s : ℕ → ℚ, crossfadeMix n s s i = s i := by
  have h0 : 0 < n := Nat.lt_of_le_of_lt (Nat.zero_le i) hi
  have hn : (n : ℚ) ≠ 0 := Nat.cast_ne_zero.mpr (Nat.pos_iff_ne_zero.mp h0)
  constructor
  · unfold fadeInGain fadeOutGain
    field_simp
  · intro s
    unfold crossfadeMix fadeInGain fadeOutGain
    field_simp
    ring

/-- C6 witness: the gains over a 4-sample overlap sum to 1 at sample 1. -/
theorem crossfade_gains_sum_to_one_witness :
    fadeInGain 4 1 + fadeOutGain 4 1 = 1 :=
  (crossfade_gains_sum_to_one 4 1 (by decide)).1

/-- C3: `gui.py`'s `from .utils import ensure_hubert_model` names a
binding `utils.py` does not define (it defines `ensure_hurbert_model`),
so importing the GUI module raises `ImportError` before `main` can run;
moreover the call sites pass keyword arguments (`tqdm_cls`, `disable`)
that `ensure_hurbert_model()`'s empty parameter list would reject. -/
theorem gui_import_fails :
    pythonFromImport utilsModuleNames guiHubertImportName =
      Except.error "ImportError: cannot import name ensure_hubert_model" ∧
    utilsModuleNames.contains "ensure_hurbert_model" = true ∧
    guiHubertCallKwargs.all
      (fun ks => ks.all fun k2 => !(ensureHurbertModelParams.contains k2)) =
      true :=
  ⟨rfl, rfl, rfl⟩

/-- C4: the end-of-iteration poll never lets a worker exception escape
into the UI thread: a done future's stored exception is retrieved via
`future.result()` inside `try`/`except` and logged, a pending future is
left alone, and an absent future raises nothing. -/
theorem worker_errors_polled (f : RtFuture) (m : String) :
    (pollFutureStep (some f)).raisedToUi = none ∧
    (f.isDone = true → f.outcome = WorkerOutcome.raised m →
      pollFutureStep (some f) =
        { newFuture := none, loggedException := some m,
          raisedToUi := none }) ∧
    (f.isDone = false →
      pollFutureStep (some f) =
        { newFuture := some f, loggedException := none,
          raisedToUi := none }) ∧
    (pollFutureStep none).raisedToUi = none := by
  obtain ⟨d, o⟩ := f
  refine ⟨?_, ?_, ?_, rfl⟩
  · cases d <;> cases o <;> rfl
  · intro h1 h2
    have hd : d = true := h1
    subst hd
    have ho : o = WorkerOutcome.raised m := h2
    subst ho
    rfl
  · intro h1
    have hd : d = false := h1
    subst hd
    rfl

/-- C4 witness: a finished worker that raised is logged, not re-raised. -/
theorem worker_errors_polled_witness :
    pollFutureStep (some ⟨true, WorkerOutcome.raised "CUDA error"⟩) =
      { newFuture := none, loggedException := some "CUDA error",
        raisedToUi := none } :=
  (worker_errors_polled ⟨true, WorkerOutcome.raised "CUDA error"⟩
    "CUDA error").2.1 rfl rfl

/-- C9: on a host with MPS but no CUDA and "Use GPU" checked (its
default there), the offline `infer` call receives `device="mps"` while
`start_vc` passes `device="cuda"`; the realtime device expression
(`"cuda" if use_gpu else "cpu"`) yields `"mps"` for neither value of
`use_gpu`, so the realtime path never emits `"mps"`. -/
theorem mps_device_asymmetry :
    useGpuDefault false true = true ∧
    inferDevice false true true = "mps" ∧
    realtimeDevice true = "cuda" ∧
    Option.map InferKwargs.device
        (inferHandler false true baseValues fsSample).call = some "mps" ∧
    Option.map RealtimeKwargs.device
        (startVcKwargs baseValues [7] [3] 0 0) = some "cuda" ∧
    realtimeDevice true ≠ "mps" ∧ realtimeDevice false ≠ "mps" := by
  refine ⟨rfl, rfl, rfl, rfl, rfl, ?_, ?_⟩ <;> decide

/-- Whenever the `start_vc` kwargs dict is built successfully, its
fields are exactly the widget values: the version is the parsed first
character of the algorithm selection, the device is the realtime device
expression, and transpose/auto_predict_f0 pass through unchanged. -/
theorem startVcKwargs_fields {v : Values} {a b : List Int} {i o : Int}
    {c : RealtimeKwargs} (h : startVcKwargs v a b i o = some c) :
    pyIntOfFirstChar v.realtime_algorithm = some c.version ∧
    c.device = realtimeDevice v.use_gpu ∧
    c.auto_predict_f0 = v.auto_predict_f0 ∧
    c.transpose = v.transpose := by
  unfold startVcKwargs at h
  cases h1 : pyIntOfFirstChar v.realtime_algorithm with
  | none => rw [h1] at h; simp at h
  | some ver =>
    cases h2 : pyListGet a i with
    | none => rw [h1, h2] at h; simp at h
    | some inDev =>
      cases h3 : pyListGet b o with
      | none => rw [h1, h2, h3] at h; simp at h
      | some outDev =>
        rw [h1, h2, h3] at h
        simp only [Option.some.injEq] at h
        subst h
        exact ⟨rfl, rfl, rfl, rfl⟩

/-- C7: for either of the two permitted realtime-algorithm selections,
the parsed first character is 1 or 2, and any realtime call built from
such a selection carries exactly that integer as its `version`. -/
theorem realtime_algorithm_versions (s : String)
    (h : s ∈ realtimeAlgorithmChoices) :
    (pyIntOfFirstChar s = some 1 ∨ pyIntOfFirstChar s = some 2) ∧
    ∀ (v : Values) (a b : List Int) (i o : Int) (c : RealtimeKwargs),
      v.realtime_algorithm = s → startVcKwargs v a b i o = some c →
      pyIntOfFirstChar s = some c.version ∧ (c.version = 1 ∨ c.version = 2) := by
  have hcase : s = "2 (Divide by speech)" ∨ s = "1 (Divide constantly)" := by
    simpa [realtimeAlgorithmChoices] using h
  have hval : pyIntOfFirstChar s = some 1 ∨ pyIntOfFirstChar s = some 2 := by
    rcases hcase with hs | hs <;> subst hs
    · exact Or.inr rfl
    · exact Or.inl rfl
  refine ⟨hval, fun v a b i o c hv hc => ?_⟩
  have hfields := (startVcKwargs_fields hc).1
  rw [hv] at hfields
  refine ⟨hfields, ?_⟩
  rcases hval with h1 | h1 <;> rw [h1] at hfields
  · exact Or.inl (Option.some.inj hfields).symm
  · exact Or.inr (Option.some.inj hfields).symm

/-- C7 witness: the selection "2 (Divide by speech)" parses to 1 or 2. -/
theorem realtime_algorithm_versions_witness :
    pyIntOfFirstChar "2 (Divide by speech)" = some 1 ∨
    pyIntOfFirstChar "2 (Divide by speech)" = some 2 :=
  (realtime_algorithm_versions "2 (Divide by speech)" (by decide)).1

/-- C1: with `auto_predict_f0` checked, the event loop disables and
hides the transpose slider, and — per the spec's Inference Adapter rule,
modelled by `effectiveTranspose` — neither the realtime kwargs nor the
offline infer kwargs carry an effective manual transpose. -/
theorem auto_predict_f0_excludes_transpose (v : Values)
    (h : v.auto_predict_f0 = true) :
    transposeUpdate v = { disabled := true, visible := false } ∧
    (∀ (a b : List Int) (i o : Int) (c : RealtimeKwargs),
      startVcKwargs v a b i o = some c →
      RealtimeKwargs.effectiveTranspose c = none) ∧
    (∀ (ca ma : Bool) (fs : FS) (c : InferKwargs),
      (inferHandler ca ma v fs).call = some c →
      InferKwargs.effectiveTranspose c = none) := by
  refine ⟨by simp [transposeUpdate, h], fun a b i o c hc => ?_,
    fun ca ma fs c hc => ?_⟩
  · have hapf := (startVcKwargs_fields hc).2.2.1
    rw [h] at hapf
    simp [RealtimeKwargs.effectiveTranspose, hapf]
  · unfold inferHandler at hc
    split at hc
    · simp at hc
    · simp only [Option.some.injEq] at hc
      subst hc
      simp [InferKwargs.effectiveTranspose, h]

/-- C1 witness: with auto F0 prediction enabled the transpose slider is
disabled and hidden, and the realtime kwargs built from that state have
no effective transpose. -/
theorem auto_predict_f0_excludes_transpose_witness :
    transposeUpdate apfValues = { disabled := true, visible := false } ∧
    Option.map RealtimeKwargs.effectiveTranspose
      (startVcKwargs apfValues [7] [3] 0 0) = some none := by
  have H := auto_predict_f0_excludes_transpose apfValues rfl
  refine ⟨H.1, ?_⟩
  cases heq : startVcKwargs apfValues [7] [3] 0 0 with
  | none => exact absurd heq (by decide)
  | some c =>
    simp only [Option.map_some']
    rw [H.2.1 [7] [3] 0 0 c heq]

/-- C5 counterexample: with model and config paths that do not exist on
the (empty) filesystem, `start_vc` still builds the kwargs and
schedules the realtime task — the session starts and no configuration
error is surfaced immediately, refuting the claimed immediate rejection
for realtime start. -/
theorem start_vc_no_validation_cex :
    FS.pathExists fsEmpty badValues.model_path = false ∧
    FS.pathExists fsEmpty badValues.config_path = false ∧
    (startVcKwargs badValues [7] [3] 0 0).isSome = true :=
  ⟨rfl, rfl, rfl⟩

/-- C5 (amended): the offline `infer` command rejects a missing or
non-file input path with a warning and never invokes `infer`; realtime
start, by contrast, performs no path or device validation — whenever
the version parse and device-index lookups succeed, the kwargs are
built and the realtime task is scheduled regardless of the filesystem,
errors surfacing only later through the polled future. -/
theorem config_validation_amended (ca ma : Bool) (v : Values) (fs : FS)
    (h : (fs.pathExists v.input_path && fs.pathIsFile v.input_path) = false) :
    inferHandler ca ma v fs = { warned := true, call := none } ∧
    ∀ (a b : List Int) (i o : Int),
      (pyIntOfFirstChar v.realtime_algorithm).isSome = true →
      (pyListGet a i).isSome = true → (pyListGet b o).isSome = true →
      (startVcKwargs v a b i o).isSome = true := by
  constructor
  · have hcond :
        (!(fs.pathExists v.input_path) || !(fs.pathIsFile v.input_path)) =
          true := by
      rw [← Bool.not_and, h]
      rfl
    unfold inferHandler
    rw [hcond]
    simp
  · intro a b i o h1 h2 h3
    obtain ⟨ver, hver⟩ := Option.isSome_iff_exists.mp h1
    obtain ⟨inDev, hin⟩ := Option.isSome_iff_exists.mp h2
    obtain ⟨outDev, hout⟩ := Option.isSome_iff_exists.mp h3
    unfold startVcKwargs
    rw [hver, hin, hout]
    rfl

/-- C5 witness: on the empty filesystem the infer branch warns and
skips `infer`, while `start_vc` with the same (invalid-path) values
still schedules. -/
theorem config_validation_amended_witness :
    inferHandler false false badValues fsEmpty =
      { warned := true, call := none } ∧
    (startVcKwargs badValues [7] [3] 0 0).isSome = true :=
  ⟨(config_validation_amended false false badValues fsEmpty rfl).1,
   (config_validation_amended false false badValues fsEmpty rfl).2
     [7] [3] 0 0 rfl rfl rfl⟩

/-- C8: when the configured config path exists and is a regular file,
`update_speaker` replaces the speaker choices with exactly the keys of
the config's `"spk"` mapping, in the mapping's order, selecting the
first entry; otherwise the widget is left unchanged. -/
theorem update_speaker_sets_choices (fs : FS) (cp : String)
    (w : SpeakerWidget) :
    (∀ (cfg : List (String × JsonV)) (ks : List String),
      fs.pathExists cp = true → fs.pathIsFile cp = true →
      fs.readJson cp = some cfg → hparamsSpkKeys cfg = some ks →
      update_speaker fs cp w =
        some { choices := ks, selectedIndex := some 0 }) ∧
    ((fs.pathExists cp && fs.pathIsFile cp) = false →
      update_speaker fs cp w = some w) := by
  constructor
  · intro cfg ks h1 h2 hcfg hks
    simp [update_speaker, h1, h2, hcfg, hks]
  · intro h
    simp [update_speaker, h]

/-- C8 witness: loading the sample config replaces the empty speaker
list with its single `"spk"` key, selected. -/
theorem update_speaker_sets_choices_witness :
    update_speaker fsSample "configs/44k/config.json" emptySpeakerWidget =
      some { choices := ["kiritan"], selectedIndex := some 0 } :=
  (update_speaker_sets_choices fsSample "configs/44k/config.json"
      emptySpeakerWidget).1
    [("spk", JsonV.obj [("kiritan", JsonV.leaf "0")])] ["kiritan"]
    rfl rfl rfl rfl

/-! ### The event loop's single-session invariant -/

theorem setCancelled_length (ts : List PoolTask) (i : Nat) :
    (setCancelled ts i).length = ts.length := by
  induction ts generalizing i with
  | nil => rfl
  | cons t rest ih => cases i <;> simp [setCancelled, ih]

theorem setFinished_length (ts : List PoolTask) (i : Nat) :
    (setFinished ts i).length = ts.length := by
  induction ts generalizing i with
  | nil => rfl
  | cons t rest ih => cases i <;> simp [setFinished, ih]

theorem get?_setCancelled (ts : List PoolTask) (i j : Nat) :
    (setCancelled ts i).get? j =
      if j = i then (ts.get? j).map (fun t => { t with cancelled := true })
      else ts.get? j := by
  induction ts generalizing i j with
  | nil => simp [setCancelled]
  | cons t rest ih =>
    cases i with
    | zero =>
      cases j with
      | zero => simp [setCancelled]
      | succ j2 => simp [setCancelled]
    | succ i2 =>
      cases j with
      | zero => simp [setCancelled]
      | succ j2 => simpa [setCancelled, Nat.succ.injEq] using ih i2 j2

theorem get?_setFinished (ts : List PoolTask) (i j : Nat) :
    (setFinished ts i).get? j =
      if j = i then (ts.get? j).map (fun t => { t with finished := true })
      else ts.get? j := by
  induction ts generalizing i j with
  | nil => simp [setFinished]
  | cons t rest ih =>
    cases i with
    | zero =>
      cases j with
      | zero => simp [setFinished]
      | succ j2 => simp [setFinished]
    | succ i2 =>
      cases j with
      | zero => simp [setFinished]
      | succ j2 => simpa [setFinished, Nat.succ.injEq] using ih i2 j2

/-- Every event of the loop preserves the invariant that the only
candidate active realtime task is the tracked one. -/
theorem trackedInv_loopStep (e : GuiEvent) (s : LoopState)
    (h : TrackedInv s) : TrackedInv (loopStep e s) := by
  cases e with
  | startVc =>
    intro j t hget hact
    cases htr : s.tracked with
    | none =>
      simp only [loopStep, htr] at hget ⊢
      by_cases hj : j < s.tasks.length
      · rw [List.get?_append hj] at hget
        exact absurd (h j t hget hact) (by simp [htr])
      · push_neg at hj
        rw [List.get?_append_right hj] at hget
        have hz : j - s.tasks.length = 0 := by
          cases hd : j - s.tasks.length with
          | zero => rfl
          | succ k => rw [hd] at hget; simp at hget
        have : j = s.tasks.length := by omega
        simp [this]
    | some i =>
      simp only [loopStep, htr] at hget ⊢
      by_cases hj : j < (setCancelled s.tasks i).length
      · rw [List.get?_append hj] at hget
        rw [get?_setCancelled] at hget
        by_cases hji : j = i
        · subst hji
          cases ho : s.tasks.get? j with
          | none => rw [ho] at hget; simp at hget
          | some t0 =>
            rw [ho] at hget
            simp at hget
            rw [← hget] at hact
            simp [isActiveRealtime] at hact
        · rw [if_neg hji] at hget
          have hjq := h j t hget hact
          rw [htr] at hjq
          exact absurd (Option.some.inj hjq).symm hji
      · push_neg at hj
        rw [List.get?_append_right hj] at hget
        have hz : j - (setCancelled s.tasks i).length = 0 := by
          cases hd : j - (setCancelled s.tasks i).length with
          | zero => rfl
          | succ k => rw [hd] at hget; simp at hget
        have : j = (setCancelled s.tasks i).length := by omega
        simp [this]
  | stopVc =>
    intro j t hget hact
    cases htr : s.tracked with
    | none =>
      simp only [loopStep, htr] at hget ⊢
      have hjq := h j t hget hact
      rw [htr] at hjq
      exact hjq
    | some i =>
      simp only [loopStep, htr] at hget ⊢
      rw [get?_setCancelled] at hget
      by_cases hji : j = i
      · subst hji
        cases ho : s.tasks.get? j with
        | none => rw [ho] at hget; simp at hget
        | some t0 =>
          rw [ho] at hget
          simp at hget
          rw [← hget] at hact
          simp [isActiveRealtime] at hact
      · rw [if_neg hji] at hget
        have hjq := h j t hget hact
        rw [htr] at hjq
        exact absurd (Option.some.inj hjq).symm hji
  | schedulePlayAudio =>
    intro j t hget hact
    simp only [loopStep] at hget ⊢
    by_cases hj : j < s.tasks.length
    · rw [List.get?_append hj] at hget
      exact h j t hget hact
    · push_neg at hj
      rw [List.get?_append_right hj] at hget
      cases hd : j - s.tasks.length with
      | zero =>
        rw [hd] at hget
        simp only [List.get?] at hget
        have ht : (⟨TaskKind.playAudio, false, false⟩ : PoolTask) = t :=
          Option.some.inj hget
        rw [← ht] at hact
        simp [isActiveRealtime] at hact
      | succ k => rw [hd] at hget; simp at hget
  | workerFinish i =>
    intro j t hget hact
    simp only [loopStep] at hget ⊢
    rw [get?_setFinished] at hget
    by_cases hji : j = i
    · subst hji
      cases ho : s.tasks.get? j with
      | none => rw [ho] at hget; simp at hget
      | some t0 =>
        rw [ho] at hget
        simp at hget
        rw [← hget] at hact
        simp [isActiveRealtime] at hact
    · rw [if_neg hji] at hget
      exact h j t hget hact
  | pollDone =>
    intro j t hget hact
    cases htr : s.tracked with
    | none =>
      simp only [loopStep, htr] at hget ⊢
      have hjq := h j t hget hact
      rw [htr] at hjq
      exact hjq
    | some i =>
      simp only [loopStep, htr] at hget ⊢
      by_cases hfin : (s.tasks.get? i).elim false (fun t2 => t2.finished) = true
      · rw [if_pos hfin] at hget ⊢
        have hjq := h j t hget hact
        rw [htr] at hjq
        have hij : i = j := Option.some.inj hjq
        subst hij
        rw [hget] at hfin
        simp only [Option.elim_some] at hfin
        simp [isActiveRealtime, hfin] at hact
      · rw [if_neg hfin] at hget ⊢
        exact h j t hget hact

/-- Every reachable loop state satisfies the tracking invariant. -/
theorem trackedInv_reachable {s : LoopState} (h : Reachable s) :
    TrackedInv s := by
  induction h with
  | init => intro j t hget hact; simp at hget
  | next e hr ih => exact trackedInv_loopStep e _ ih

/-- A list in which any two positions holding elements satisfying `p`
coincide has at most one element satisfying `p`. -/
theorem count_le_one_of_unique {p : PoolTask → Bool} {l : List PoolTask}
    (h : ∀ j k tj tk, l.get? j = some tj → l.get? k = some tk →
      p tj = true → p tk = true → j = k) :
    (l.filter p).length ≤ 1 := by
  induction l with
  | nil => simp
  | cons a tl ih =>
    by_cases hpa : p a = true
    · have htl : tl.filter p = [] := by
        rw [List.filter_eq_nil]
        intro x hx hpx
        obtain ⟨j, hj⟩ := List.mem_iff_get?.mp hx
        have := h (j + 1) 0 x a (by simpa using hj) rfl hpx hpa
        exact Nat.succ_ne_zero j this
      simp [List.filter_cons, hpa, htl]
    · have hpa' : p a = false := by simpa using hpa
      simp only [List.filter_cons, hpa', Bool.false_eq_true, if_false]
      apply ih
      intro j k tj tk hj hk hpj hpk
      have := h (j + 1) (k + 1) tj tk (by simpa using hj) (by simpa using hk)
        hpj hpk
      omega

/-- C2: in every reachable loop state at most one realtime session is
active in the single-worker pool, and a `start_vc` event cancels the
tracked prior future before appending and tracking the fresh realtime
task — so the new state again has at most one active session. -/
theorem single_active_realtime (s : LoopState) (hr : Reachable s) :
    activeCount s ≤ 1 ∧
    (loopStep GuiEvent.startVc s).tracked = some s.tasks.length ∧
    (loopStep GuiEvent.startVc s).tasks.get? s.tasks.length =
      some ⟨TaskKind.realtime, false, false⟩ ∧
    (∀ i t, s.tracked = some i → s.tasks.get? i = some t →
      (loopStep GuiEvent.startVc s).tasks.get? i =
        some { t with cancelled := true }) ∧
    activeCount (loopStep GuiEvent.startVc s) ≤ 1 := by
  have hcount : ∀ s2 : LoopState, TrackedInv s2 → activeCount s2 ≤ 1 := by
    intro s2 h2
    apply count_le_one_of_unique
    intro j k tj tk hj hk hpj hpk
    have e1 := h2 j tj hj hpj
    have e2 := h2 k tk hk hpk
    rw [e1] at e2
    exact Option.some.inj e2
  refine ⟨hcount s (trackedInv_reachable hr), ?_, ?_, ?_,
    hcount _ (trackedInv_reachable (Reachable.next GuiEvent.startVc hr))⟩
  · cases htr : s.tracked <;> simp [loopStep, htr, setCancelled_length]
  · cases htr : s.tracked with
    | none =>
      simp only [loopStep, htr]
      exact List.get?_concat_length _ _
    | some i =>
      simp only [loopStep, htr]
      have hc := List.get?_concat_length (setCancelled s.tasks i)
        (⟨TaskKind.realtime, false, false⟩ : PoolTask)
      rw [setCancelled_length] at hc
      exact hc
  · intro i t htr hget
    obtain ⟨hlt, -⟩ := List.get?_eq_some.mp hget
    simp only [loopStep, htr]
    have hlt2 : i < (setCancelled s.tasks i).length := by
      rw [setCancelled_length]; exact hlt
    rw [List.get?_append hlt2, get?_setCancelled, if_pos rfl, hget]
    rfl

/-- C2 witness: after two consecutive `start_vc` events the first
session is cancelled, exactly the second is active, and a third
`start_vc` cancels the second before scheduling. -/
theorem single_active_realtime_witness :
    activeCount sampleLoopState ≤ 1 ∧
    (loopStep GuiEvent.startVc sampleLoopState).tasks.get? 1 =
      some ⟨TaskKind.realtime, true, false⟩ := by
  have H := single_active_realtime sampleLoopState
    (Reachable.next GuiEvent.startVc
      (Reachable.next GuiEvent.startVc Reachable.init))
  exact ⟨H.1, H.2.2.2.1 1 ⟨TaskKind.realtime, false, false⟩ rfl rfl⟩

end SoVits
